import Mathlib

/-!
# Rift-Architect core — shallow embedding and verification

This file embeds the core components of the Rift-Architect companion daemon
in Lean 4 and proves the spec's testable properties against them:

* the token-bucket rate limiter and its header parser
  (`Bucket`, `RateLimiter` in `riot-api-client`),
* the serial FIFO bottleneck queue and the 403 / credential-expiry logic
  (`BottleneckQueue`, `RiotApiClient`),
* the 429 retry loop (`RiotApiClient.#requestWithRetry`),
* the game-phase state machine (`state-machine.js`),
* the live-client event poller (`live-client.js`),
* the orchestrator's advisor handover (`orchestrator.js`),
* the tactical trigger detector (`triggers.js`) and the strategist's
  60-second advice cooldown (`macro-strategist/agent.js`).

Times are modelled as milliseconds (`Int`), game times as seconds (`ℚ`).
JavaScript `NaN` outcomes (e.g. arithmetic on a missing array element) are
modelled by `Option`, with `none` playing the role of `NaN`.
-/

namespace Rift

/-! ## Token-bucket rate limiter (`Bucket`, `RateLimiter`) -/

/-- A single rate-limit bucket (`Bucket` in the source): at most `max`
requests per `windowMs` milliseconds, plus the recorded request
timestamps in arrival order. -/
structure Bucket where
  max : Nat
  windowMs : Int
  timestamps : List Int
deriving Repr, DecidableEq

namespace Bucket

/-- The pruning step `#prune`: keep only timestamps strictly newer than
`now - windowMs` (the source filters `t > cutoff`). -/
def pruneList (b : Bucket) (now : Int) : List Int :=
  b.timestamps.filter (fun t => now - b.windowMs < t)

/-- State after `#prune` ran (the source mutates `#timestamps` in place). -/
def prune (b : Bucket) (now : Int) : Bucket :=
  { b with timestamps := b.pruneList now }

/-- `canRequest()`: prune, then test `timestamps.length < max`. -/
def canRequest (b : Bucket) (now : Int) : Bool :=
  (b.pruneList now).length < b.max

/-- `consume()`: push the current timestamp. -/
def consume (b : Bucket) (now : Int) : Bucket :=
  { b with timestamps := b.timestamps ++ [now] }

/-- `waitTime()`: prune; `0` if a slot is free, otherwise
`timestamps[0] + windowMs - now`.  `none` models the JavaScript `NaN`
that arises when an at-capacity bucket has no recorded timestamp
(only possible when `max = 0`, where `timestamps[0]` is `undefined`). -/
def waitTime (b : Bucket) (now : Int) : Option Int :=
  let ts := b.pruneList now
  if ts.length < b.max then some 0
  else ts.head?.map (fun t => t + b.windowMs - now)

end Bucket

/-- JavaScript `String.prototype.split` with a single-character separator,
over the string's character list (structural, so proofs can evaluate it):
`"a,b" ↦ ["a","b"]`, `"" ↦ [""]`, `"," ↦ ["",""]`. -/
def splitChar (sep : Char) : List Char → List (List Char)
  | [] => [[]]
  | c :: cs =>
    let rest := splitChar sep cs
    if c = sep then [] :: rest
    else
      match rest with
      | [] => [[c]]
      | r :: rs => (c :: r) :: rs

/-- JavaScript `Number(s)` restricted to the canonical non-negative decimal
strings that occur in rate-limit headers (note `Number("") = 0` also
holds under this model). -/
def jsNumber (cs : List Char) : Nat :=
  cs.foldl (fun n c => n * 10 + (c.toNat - 48)) 0

/-- `RateLimiter.parseBuckets`: `""` (falsy) yields the safe defaults
`20:1,100:120`; otherwise split on `,`, then each `N:S` pair on `:`,
building a fresh bucket with `windowMs = S * 1000` and no timestamps. -/
def parseBuckets (headerValue : String) : List Bucket :=
  if headerValue.data = [] then [⟨20, 1000, []⟩, ⟨100, 120000, []⟩]
  else (splitChar ',' headerValue.data).map (fun pair =>
    let nums := (splitChar ':' pair).map jsNumber
    ⟨nums.getD 0 0, ((nums.getD 1 0 : Nat) : Int) * 1000, []⟩)

/-- `RateLimiter`: a conjunction of buckets parsed from the header. -/
structure RateLimiter where
  buckets : List Bucket
deriving Repr, DecidableEq

namespace RateLimiter

/-- `new RateLimiter(headerValue)`. -/
def ofHeader (headerValue : String) : RateLimiter :=
  ⟨parseBuckets headerValue⟩

/-- `canRequest()`: every bucket admits. -/
def canRequest (rl : RateLimiter) (now : Int) : Bool :=
  rl.buckets.all (fun b => b.canRequest now)

/-- `consume()`: record the request in every bucket. -/
def consume (rl : RateLimiter) (now : Int) : RateLimiter :=
  ⟨rl.buckets.map (fun b => b.consume now)⟩

/-- `update(headerValue)`: replace the bucket set with freshly parsed
buckets (discarding all recorded timestamps). -/
def update (_rl : RateLimiter) (headerValue : String) : RateLimiter :=
  ⟨parseBuckets headerValue⟩

/-- `waitTime()`: `Math.max(0, ...buckets.map(waitTime))`; `none` models
the `NaN` poisoning of `Math.max`. -/
def waitTime (rl : RateLimiter) (now : Int) : Option Int :=
  (rl.buckets.map (fun b => b.waitTime now)).foldl
    (fun acc w =>
      match acc, w with
      | some a, some b => some (Max.max a b)
      | _, _ => none)
    (some 0)

end RateLimiter

/-- Helper: folding the `Math.max` step over a list of `some 0` wait
times starting from `some 0` stays `some 0`. -/
theorem foldl_jsmax_some_zero (ws : List (Option Int))
    (h : ∀ w ∈ ws, w = some 0) :
    ws.foldl
      (fun acc w =>
        match acc, w with
        | some a, some b => some (Max.max a b)
        | _, _ => none)
      (some 0) = some 0 := by
  induction ws with
  | nil => rfl
  | cons w ws ih =>
    have hw := h w (List.mem_cons_self w ws)
    subst hw
    simpa using ih (fun x hx => h x (List.mem_cons_of_mem _ hx))

end Rift

/-- C7: `parseBuckets "20:1,100:120"` yields exactly the buckets
(20 per 1 s) and (100 per 120 s); `parseBuckets ""` yields the same safe
defaults; and for every bucket, `canRequest()` is `true` iff after pruning
timestamps older than the window fewer than `max` remain, while
`waitTime()` is `0` when admitted and `oldest + window − now` when the
bucket is at capacity (with an oldest pruned timestamp present). -/
theorem c7_rate_bucket_parse_and_admission :
    Rift.parseBuckets "20:1,100:120" = [⟨20, 1000, []⟩, ⟨100, 120000, []⟩] ∧
    Rift.parseBuckets "" = [⟨20, 1000, []⟩, ⟨100, 120000, []⟩] ∧
    (∀ (b : Rift.Bucket) (now : Int),
      (b.canRequest now = true ↔ (b.pruneList now).length < b.max) ∧
      (b.canRequest now = true → b.waitTime now = some 0) ∧
      (∀ t rest, b.canRequest now = false → b.pruneList now = t :: rest →
        b.waitTime now = some (t + b.windowMs - now))) := by
  refine ⟨by rfl, by rfl, ?_⟩
  intro b now
  refine ⟨?_, ?_, ?_⟩
  · simp [Rift.Bucket.canRequest]
  · intro h
    simp only [Rift.Bucket.canRequest, decide_eq_true_eq] at h
    simp [Rift.Bucket.waitTime, h]
  · intro t rest hfull hprune
    have h1 : ¬ (b.pruneList now).length < b.max := by
      simpa [Rift.Bucket.canRequest] using hfull
    rw [hprune] at h1
    have h2 : ¬ rest.length + 1 < b.max := by simpa using h1
    simp [Rift.Bucket.waitTime, hprune, h2]

/-- Witness for C7 at a concrete bucket: capacity 2, window 1000 ms,
timestamps [100, 600], queried at `now = 1400` (one timestamp pruned). -/
theorem c7_rate_bucket_parse_and_admission_witness :
    (Rift.Bucket.mk 2 1000 [100, 600]).canRequest 1400 = true ∧
    (Rift.Bucket.mk 2 1000 [100, 600]).waitTime 1400 = some 0 ∧
    (Rift.Bucket.mk 1 1000 [100, 600]).canRequest 1400 = false ∧
    (Rift.Bucket.mk 1 1000 [100, 600]).waitTime 1400 = some 200 := by
  have h := c7_rate_bucket_parse_and_admission.2.2
  refine ⟨by decide, (h ⟨2, 1000, [100, 600]⟩ 1400).2.1 (by decide), by decide, ?_⟩
  have := (h ⟨1, 1000, [100, 600]⟩ 1400).2.2 600 [] (by decide) (by decide)
  simpa using this

/-- C10 counterexample: the claim asserts that immediately after *any*
`update`, `canRequest()` returns `true`.  Updating with the header
`"0:1"` installs a bucket of capacity 0, whose `canRequest()` is `false`
even though its timestamp list is empty. -/
theorem c10_counterexample :
    (((Rift.RateLimiter.ofHeader "20:1").consume 500).update "0:1").canRequest
      1000 = false := by
  rfl

/-- C10 (amended): `update` discards all previously recorded timestamps —
after any update every bucket is empty — and *provided every parsed
bucket has positive capacity* (true of every real Riot header such as the
defaults), `canRequest()` returns `true` and `waitTime()` returns `0`
regardless of preceding `consume()` calls. -/
theorem c10_update_resets_buckets (rl : Rift.RateLimiter) (h : String)
    (now : Int) :
    (∀ b ∈ (rl.update h).buckets, b.timestamps = []) ∧
    ((∀ b ∈ Rift.parseBuckets h, 0 < b.max) →
      (rl.update h).canRequest now = true ∧
      (rl.update h).waitTime now = some 0) := by
  have hempty : ∀ b ∈ Rift.parseBuckets h, b.timestamps = [] := by
    intro b hb
    unfold Rift.parseBuckets at hb
    split at hb
    · simp at hb
      rcases hb with hb | hb <;> simp [hb]
    · rcases List.mem_map.1 hb with ⟨pair, _, rfl⟩
      rfl
  constructor
  · exact hempty
  · intro hpos
    constructor
    · simp only [Rift.RateLimiter.canRequest, Rift.RateLimiter.update,
        List.all_eq_true]
      intro b hb
      have h1 := hempty b hb
      have h2 := hpos b hb
      simp [Rift.Bucket.canRequest, Rift.Bucket.pruneList, h1, h2]
    · unfold Rift.RateLimiter.waitTime Rift.RateLimiter.update
      apply Rift.foldl_jsmax_some_zero
      intro w hw
      rcases List.mem_map.1 hw with ⟨b, hb, rfl⟩
      have h1 := hempty b hb
      have h2 := hpos b hb
      simp [Rift.Bucket.waitTime, Rift.Bucket.pruneList, h1, h2]

/-- Witness for C10 (amended) at the default header and `now = 5000`,
after two preceding `consume()` calls. -/
theorem c10_update_resets_buckets_witness :
    (∀ b ∈ ((((Rift.RateLimiter.ofHeader "20:1,100:120").consume 10).consume
        20).update "20:1,100:120").buckets, b.timestamps = []) ∧
    ((((Rift.RateLimiter.ofHeader "20:1,100:120").consume 10).consume
        20).update "20:1,100:120").canRequest 5000 = true ∧
    ((((Rift.RateLimiter.ofHeader "20:1,100:120").consume 10).consume
        20).update "20:1,100:120").waitTime 5000 = some 0 := by
  have h := c10_update_resets_buckets
    (((Rift.RateLimiter.ofHeader "20:1,100:120").consume 10).consume 20)
    "20:1,100:120" 5000
  exact ⟨h.1, h.2 (by decide)⟩

/-! ## 429 retry (`RiotApiClient.#requestWithRetry`) -/

namespace Rift

/-- One scripted HTTP response for a Riot cloud request.  For a 429 the
field carries the parsed `Retry-After` header value in seconds
(`none` = header absent, in which case the source's
`parseInt(headers["retry-after"] || "1")` defaults to 1). -/
inductive RiotResp where
  | ok
  | status429 (retryAfter : Option Nat)
  | statusOther
deriving Repr, DecidableEq

/-- Observable outcome of running `#requestWithRetry` against a response
script: whether the promise resolves, the retry sleeps performed (ms), how
many `rate-limited` events were emitted, and how many HTTP requests went
out. -/
structure RetryRun where
  success : Bool
  sleepsMs : List Nat
  rateLimitedEmits : Nat
  httpCalls : Nat
deriving Repr, DecidableEq

/-- `#requestWithRetry(hostname, path, attempt)` over a response script
(one scripted response per HTTP call; an exhausted script models a
transport failure).  On a 429 the source retries only when
`err.retryAfterMs && attempt < MAX_RETRIES` — note `retryAfterMs = 0` is
falsy — sleeping `retryAfterMs` first; on the final failure of a 429 it
emits one `rate-limited` event and rethrows. `MAX_RETRIES = 3`. -/
def requestWithRetry : Nat → List RiotResp → RetryRun
  | _, [] => ⟨false, [], 0, 0⟩
  | attempt, r :: rest =>
    match r with
    | .ok => ⟨true, [], 0, 1⟩
    | .statusOther => ⟨false, [], 0, 1⟩
    | .status429 h =>
      let retryAfterMs := h.getD 1 * 1000
      if retryAfterMs ≠ 0 ∧ attempt < 3 then
        let sub := requestWithRetry (attempt + 1) rest
        ⟨sub.success, retryAfterMs :: sub.sleepsMs, sub.rateLimitedEmits,
          sub.httpCalls + 1⟩
      else ⟨false, [], 1, 1⟩

/-- Unfolding step for C4: a 429 with nonzero parsed retry-after and
retries remaining sleeps `retryAfter × 1000` ms and recurses on the rest
of the script. -/
theorem requestWithRetry_429_step (attempt : Nat) (h : Option Nat)
    (rest : List RiotResp) (hh : h.getD 1 ≠ 0) (hlt : attempt < 3) :
    requestWithRetry attempt (RiotResp.status429 h :: rest) =
      ⟨(requestWithRetry (attempt + 1) rest).success,
        h.getD 1 * 1000 :: (requestWithRetry (attempt + 1) rest).sleepsMs,
        (requestWithRetry (attempt + 1) rest).rateLimitedEmits,
        (requestWithRetry (attempt + 1) rest).httpCalls + 1⟩ := by
  simp [requestWithRetry, hh, hlt]

/-- Helper for C4: behaviour of `#requestWithRetry` on a burst of 429s
(all with nonzero parsed retry-after) followed by a success, for any
starting attempt counter `≤ 3`. -/
theorem requestWithRetry_429_burst (hs : List (Option Nat)) :
    ∀ (attempt : Nat) (rest : List RiotResp), attempt ≤ 3 →
    (∀ h ∈ hs, h.getD 1 ≠ 0) →
    (hs.length ≤ 3 - attempt →
      requestWithRetry attempt (hs.map RiotResp.status429 ++ RiotResp.ok :: rest) =
        ⟨true, hs.map (fun h => h.getD 1 * 1000), 0, hs.length + 1⟩) ∧
    (3 - attempt < hs.length →
      requestWithRetry attempt (hs.map RiotResp.status429 ++ RiotResp.ok :: rest) =
        ⟨false, (hs.take (3 - attempt)).map (fun h => h.getD 1 * 1000), 1,
          (3 - attempt) + 1⟩) := by
  induction hs with
  | nil =>
    intro attempt rest _ _
    refine ⟨fun _ => by simp [requestWithRetry], fun hlt => by simp at hlt⟩
  | cons h t ih =>
    intro attempt rest hatt hpos
    have hh : h.getD 1 ≠ 0 := hpos h (List.mem_cons_self h t)
    have hpos' : ∀ x ∈ t, x.getD 1 ≠ 0 :=
      fun x hx => hpos x (List.mem_cons_of_mem _ hx)
    by_cases hlt : attempt < 3
    · have ihspec := ih (attempt + 1) rest (by omega) hpos'
      have hstep := requestWithRetry_429_step attempt h
        (t.map RiotResp.status429 ++ RiotResp.ok :: rest) hh hlt
      constructor
      · intro hlen
        have hlen' : t.length ≤ 3 - (attempt + 1) := by
          simp at hlen; omega
        rw [List.map_cons, List.cons_append, hstep, ihspec.1 hlen']
        simp
      · intro hlen
        have hlen' : 3 - (attempt + 1) < t.length := by
          simp at hlen; omega
        rw [List.map_cons, List.cons_append, hstep, ihspec.2 hlen']
        have htake : 3 - attempt = (3 - (attempt + 1)) + 1 := by omega
        simp [htake, List.take_succ_cons]
    · have hattv : attempt = 3 := by omega
      subst hattv
      constructor
      · intro hlen; simp at hlen
      · intro _
        simp [requestWithRetry]

end Rift

/-- C4 counterexample: the claim says every 429 is retried (after sleeping
the server retry-after) while retry attempts remain.  A 429 whose
`Retry-After` header parses to `0` yields `retryAfterMs = 0`, which is
falsy in `err.retryAfterMs && attempt < this.#MAX_RETRIES`, so the request
is *not* retried even though a success was next: the run fails after one
HTTP call. -/
theorem c4_counterexample :
    ¬ (∀ h : Option Nat,
        (Rift.requestWithRetry 0
          [Rift.RiotResp.status429 h, Rift.RiotResp.ok]).success = true) := by
  intro hall
  exact absurd (hall (some 0)) (by decide)

/-- C4 (amended): for a burst of 429 responses whose parsed retry-after
values are all nonzero (in particular whenever the header is absent, where
the source defaults to 1 s): each 429 with retries remaining sleeps
`retryAfter × 1000` ms and retries; at most 3 retries happen (4 HTTP
calls); if the burst ends within the budget the task succeeds with no
`rate-limited` emission, otherwise the error surfaces after the 4th call
with exactly one `rate-limited` emission.  A 429 whose retry-after parses
to 0 is instead surfaced immediately (see the counterexample). -/
theorem c4_retry_429 (hs : List (Option Nat)) (rest : List Rift.RiotResp)
    (hpos : ∀ h ∈ hs, h.getD 1 ≠ 0) :
    (hs.length ≤ 3 →
      Rift.requestWithRetry 0
          (hs.map Rift.RiotResp.status429 ++ Rift.RiotResp.ok :: rest) =
        ⟨true, hs.map (fun h => h.getD 1 * 1000), 0, hs.length + 1⟩) ∧
    (3 < hs.length →
      Rift.requestWithRetry 0
          (hs.map Rift.RiotResp.status429 ++ Rift.RiotResp.ok :: rest) =
        ⟨false, (hs.take 3).map (fun h => h.getD 1 * 1000), 1, 4⟩) := by
  have h := Rift.requestWithRetry_429_burst hs 0 rest (by omega) hpos
  simpa using h

/-- Witness for C4: scenario S4 — two 429s with `Retry-After: 2`, then a
200: the task succeeds after sleeping 2000 ms twice (3 HTTP calls, no
emission); and four absent-header 429s: the error surfaces after sleeping
the 1 s default three times, with exactly one `rate-limited` emission. -/
theorem c4_retry_429_witness :
    Rift.requestWithRetry 0
        [Rift.RiotResp.status429 (some 2), Rift.RiotResp.status429 (some 2),
          Rift.RiotResp.ok] =
      ⟨true, [2000, 2000], 0, 3⟩ ∧
    Rift.requestWithRetry 0
        [Rift.RiotResp.status429 none, Rift.RiotResp.status429 none,
          Rift.RiotResp.status429 none, Rift.RiotResp.status429 none,
          Rift.RiotResp.ok] =
      ⟨false, [1000, 1000, 1000], 1, 4⟩ := by
  constructor
  · exact (c4_retry_429 [some 2, some 2] [] (by decide)).1 (by decide)
  · exact (c4_retry_429 [none, none, none, none] [] (by decide)).2 (by decide)

/-! ## Serial FIFO queue (`BottleneckQueue`) -/

namespace Rift

/-- Operations observable at the `BottleneckQueue` boundary.  `enqueueTask`
is `enqueue(fn)` (tasks are numbered in submission order); `dispatchNext`
is one iteration of the serial `#drain` loop shifting the head task and
running it to completion; `pauseIndefinite` is `pause()` (the 403 path,
`#pauseUntil = 0`), which also rejects every pending task; `resume` is
`resume()`. -/
inductive QueueOp where
  | enqueueTask
  | dispatchNext
  | pauseIndefinite
  | resume
deriving Repr, DecidableEq

/-- State of the bottleneck queue, instrumented with the histories the
FIFO claim is about: `arrivals` records accepted enqueues in order,
`dispatched` records tasks in the order `#drain` ran them, `rejected`
records tasks rejected by `pause()` or at enqueue time. -/
structure QueueState where
  nextId : Nat
  arrivals : List Nat
  pending : List Nat
  dispatched : List Nat
  rejected : List Nat
  hardPaused : Bool
deriving Repr, DecidableEq

/-- Fresh queue. -/
def QueueState.init : QueueState := ⟨0, [], [], [], [], false⟩

/-- One step of the queue.  `enqueue` rejects immediately when paused
indefinitely, else pushes; the drain loop stops while paused
indefinitely, else shifts the head; `pause()` rejects all pending. -/
def queueStep (s : QueueState) (op : QueueOp) : QueueState :=
  match op with
  | .enqueueTask =>
    if s.hardPaused then
      { s with nextId := s.nextId + 1, rejected := s.rejected ++ [s.nextId] }
    else
      { s with
        nextId := s.nextId + 1,
        arrivals := s.arrivals ++ [s.nextId],
        pending := s.pending ++ [s.nextId] }
  | .dispatchNext =>
    if s.hardPaused then s
    else
      match s.pending with
      | [] => s
      | h :: t => { s with pending := t, dispatched := s.dispatched ++ [h] }
  | .pauseIndefinite =>
    { s with
      hardPaused := true,
      rejected := s.rejected ++ s.pending,
      pending := [] }
  | .resume => { s with hardPaused := false }

/-- Run a sequence of queue operations. -/
def queueRun (s : QueueState) (ops : List QueueOp) : QueueState :=
  ops.foldl queueStep s

/-- FIFO invariant of the bottleneck queue. -/
def QueueInv (s : QueueState) : Prop :=
  List.Sublist (s.dispatched ++ s.pending) s.arrivals ∧
  s.arrivals.Pairwise (· < ·) ∧
  ∀ x ∈ s.arrivals, x < s.nextId

/-- Helper: every queue step preserves the FIFO invariant. -/
theorem queueStep_inv (s : QueueState) (op : QueueOp) (h : QueueInv s) :
    QueueInv (queueStep s op) := by
  obtain ⟨hsub, hsort, hbound⟩ := h
  cases op with
  | enqueueTask =>
    cases hp : s.hardPaused with
    | true =>
      refine ⟨by simpa [queueStep, hp] using hsub,
        by simpa [queueStep, hp] using hsort, ?_⟩
      simp [queueStep, hp]
      intro x hx
      have := hbound x hx
      omega
    | false =>
      refine ⟨?_, ?_, ?_⟩
      · simp only [queueStep, hp]
        simp only [Bool.false_eq_true, if_false]
        rw [← List.append_assoc]
        exact hsub.append (List.Sublist.refl [s.nextId])
      · simp only [queueStep, hp]
        simp only [Bool.false_eq_true, if_false]
        rw [List.pairwise_append]
        refine ⟨hsort, List.pairwise_singleton _ _, ?_⟩
        intro a ha b hb
        simp at hb
        subst hb
        exact hbound a ha
      · simp [queueStep, hp]
        intro x hx
        rcases hx with hx | hx
        · have := hbound x hx; omega
        · omega
  | dispatchNext =>
    cases hp : s.hardPaused with
    | true => simpa [queueStep, hp] using ⟨hsub, hsort, hbound⟩
    | false =>
      cases hpend : s.pending with
      | nil => simpa [queueStep, hp, hpend] using ⟨hsub, hsort, hbound⟩
      | cons h t =>
        rw [hpend] at hsub
        refine ⟨?_, by simpa [queueStep, hp, hpend] using hsort,
          by simpa [queueStep, hp, hpend] using hbound⟩
        simp only [queueStep, hp, hpend]
        simp only [Bool.false_eq_true, if_false]
        rw [List.append_assoc]
        simpa using hsub
  | pauseIndefinite =>
    refine ⟨?_, by simpa [queueStep] using hsort,
      by simpa [queueStep] using hbound⟩
    simp only [queueStep, List.append_nil]
    exact (List.sublist_append_left s.dispatched s.pending).trans hsub
  | resume =>
    exact ⟨by simpa [queueStep] using hsub, by simpa [queueStep] using hsort,
      by simpa [queueStep] using hbound⟩

/-- Helper: the invariant holds after any run from the initial state. -/
theorem queueRun_inv (ops : List QueueOp) :
    ∀ s : QueueState, QueueInv s → QueueInv (queueRun s ops) := by
  induction ops with
  | nil => exact fun s h => h
  | cons op ops ih =>
    intro s h
    exact ih (queueStep s op) (queueStep_inv s op h)

end Rift

/-- C5: scheduler FIFO.  Task identifiers are assigned in enqueue order,
so `arrivals` is strictly increasing; after any sequence of queue
operations the dispatch history is a sublist of the accepted-arrival
history and is itself strictly increasing — i.e. tasks depart one at a
time and, for any two tasks `a`, `b` accepted in that order, `a`
dispatches strictly before `b`. -/
theorem c5_scheduler_fifo (ops : List Rift.QueueOp) :
    (Rift.queueRun Rift.QueueState.init ops).arrivals.Pairwise (· < ·) ∧
    List.Sublist (Rift.queueRun Rift.QueueState.init ops).dispatched
      (Rift.queueRun Rift.QueueState.init ops).arrivals ∧
    (Rift.queueRun Rift.QueueState.init ops).dispatched.Pairwise (· < ·) := by
  have hinv := Rift.queueRun_inv ops Rift.QueueState.init
    (by refine ⟨?_, ?_, ?_⟩ <;> simp [Rift.QueueState.init])
  obtain ⟨hsub, hsort, _⟩ := hinv
  have hd : List.Sublist (Rift.queueRun Rift.QueueState.init ops).dispatched
      (Rift.queueRun Rift.QueueState.init ops).arrivals :=
    (List.sublist_append_left _ _).trans hsub
  exact ⟨hsort, hd, hsort.sublist hd⟩

/-! ## Credential expiry (403) — `RiotApiClient` over the queue -/

namespace Rift

/-- Outcome recorded for one submitted Riot API task.
`rejectedNoHttp` covers both immediate-rejection paths, which never make
an HTTP call: the `#keyExpired` check in `#platformRequest` /
`#regionalRequest` and the indefinite-pause check in `enqueue`;
`rejectedCredentialExpired` is the rejection `pause()` applies to every
task still queued; `failed403` is the in-flight task whose response was
the 403; `completed` is a successful dispatch. -/
inductive TaskOutcome where
  | rejectedNoHttp
  | rejectedCredentialExpired
  | failed403
  | completed
deriving Repr, DecidableEq

/-- Operations at the `RiotApiClient` boundary: submit a request
(`#platformRequest` / `#regionalRequest`), run the head task and receive
a 403, run the head task and receive a 200, and `reloadKey()` (with or
without a key configured). -/
inductive ClientOp where
  | submit
  | dispatch403
  | dispatchOk
  | reloadKey (hasKey : Bool)
deriving Repr, DecidableEq

/-- Client + queue state for the credential-expiry protocol.  `results`
records, per task id, how its promise settled; `keyExpiredEmits` counts
`key-expired` events; `httpCalls` counts HTTP requests actually sent. -/
structure ClientState where
  keyExpired : Bool
  hardPaused : Bool
  pending : List Nat
  nextId : Nat
  keyExpiredEmits : Nat
  results : List (Nat × TaskOutcome)
  httpCalls : Nat
deriving Repr, DecidableEq

/-- Fresh client (key configured, queue running). -/
def ClientState.init : ClientState := ⟨false, false, [], 0, 0, [], 0⟩

/-- One step of the client.  The 403 branch of `#request` runs, for the
in-flight head task: reject it, and — only if `#keyExpired` was not
already set — set `#keyExpired`, `pause()` the queue (rejecting every
queued task) and emit `key-expired` once.  `reloadKey()` clears the flag
and resumes only when a key is present. -/
def clientStep (s : ClientState) (op : ClientOp) : ClientState :=
  match op with
  | .submit =>
    if s.keyExpired ∨ s.hardPaused then
      { s with
        nextId := s.nextId + 1,
        results := s.results ++ [(s.nextId, .rejectedNoHttp)] }
    else
      { s with nextId := s.nextId + 1, pending := s.pending ++ [s.nextId] }
  | .dispatch403 =>
    match s.pending with
    | [] => s
    | h :: t =>
      if s.hardPaused then s
      else
        let s1 := { s with
          pending := t,
          httpCalls := s.httpCalls + 1,
          results := s.results ++ [(h, .failed403)] }
        if s.keyExpired then s1
        else
          { s1 with
            keyExpired := true,
            hardPaused := true,
            pending := [],
            results := s1.results ++
              t.map (fun x => (x, TaskOutcome.rejectedCredentialExpired)),
            keyExpiredEmits := s.keyExpiredEmits + 1 }
  | .dispatchOk =>
    match s.pending with
    | [] => s
    | h :: t =>
      if s.hardPaused then s
      else
        { s with
          pending := t,
          httpCalls := s.httpCalls + 1,
          results := s.results ++ [(h, .completed)] }
  | .reloadKey hasKey =>
    if hasKey then { s with keyExpired := false, hardPaused := false }
    else s

/-- Run a sequence of client operations. -/
def clientRun (s : ClientState) (ops : List ClientOp) : ClientState :=
  ops.foldl clientStep s

end Rift

namespace Rift

/-- Helper: one client step from a hard-paused, key-expired, drained state
— by any operation other than `reloadKey` with a key — keeps that state,
makes no HTTP call, emits nothing, and can only add `rejectedNoHttp`
results. -/
theorem clientStep_sticky (s : ClientState) (op : ClientOp)
    (hk : s.keyExpired = true) (hp : s.hardPaused = true)
    (hpend : s.pending = []) (hop : op ≠ .reloadKey true) :
    (clientStep s op).keyExpired = true ∧
    (clientStep s op).hardPaused = true ∧
    (clientStep s op).pending = [] ∧
    (clientStep s op).httpCalls = s.httpCalls ∧
    (clientStep s op).keyExpiredEmits = s.keyExpiredEmits ∧
    ∀ r ∈ (clientStep s op).results,
      r ∈ s.results ∨ r.2 = TaskOutcome.rejectedNoHttp := by
  cases op with
  | submit =>
    refine ⟨by simp [clientStep, hk], by simp [clientStep, hk, hp],
      by simp [clientStep, hk, hpend], by simp [clientStep, hk],
      by simp [clientStep, hk], ?_⟩
    intro r hr
    simp [clientStep, hk] at hr
    rcases hr with hr | hr
    · exact Or.inl hr
    · right
      rw [hr]
  | dispatch403 =>
    rw [show clientStep s .dispatch403 = s by simp [clientStep, hpend]]
    exact ⟨hk, hp, hpend, rfl, rfl, fun r hr => Or.inl hr⟩
  | dispatchOk =>
    rw [show clientStep s .dispatchOk = s by simp [clientStep, hpend]]
    exact ⟨hk, hp, hpend, rfl, rfl, fun r hr => Or.inl hr⟩
  | reloadKey hasKey =>
    cases hasKey with
    | true => exact absurd rfl hop
    | false =>
      rw [show clientStep s (.reloadKey false) = s by simp [clientStep]]
      exact ⟨hk, hp, hpend, rfl, rfl, fun r hr => Or.inl hr⟩

/-- Helper: sticky hard pause over a whole run without a successful
`reloadKey`. -/
theorem clientRun_sticky (ops : List ClientOp) :
    ∀ s : ClientState, s.keyExpired = true → s.hardPaused = true →
    s.pending = [] → (∀ op ∈ ops, op ≠ .reloadKey true) →
    (clientRun s ops).keyExpired = true ∧
    (clientRun s ops).hardPaused = true ∧
    (clientRun s ops).pending = [] ∧
    (clientRun s ops).httpCalls = s.httpCalls ∧
    (clientRun s ops).keyExpiredEmits = s.keyExpiredEmits ∧
    ∀ r ∈ (clientRun s ops).results,
      r ∈ s.results ∨ r.2 = TaskOutcome.rejectedNoHttp := by
  induction ops with
  | nil =>
    intro s hk hp hpend _
    exact ⟨hk, hp, hpend, rfl, rfl, fun r hr => Or.inl hr⟩
  | cons op ops ih =>
    intro s hk hp hpend hops
    have hstep := clientStep_sticky s op hk hp hpend
      (hops op (List.mem_cons_self op ops))
    obtain ⟨hk1, hp1, hpend1, hcalls1, hemits1, hres1⟩ := hstep
    have hrest := ih (clientStep s op) hk1 hp1 hpend1
      (fun x hx => hops x (List.mem_cons_of_mem _ hx))
    obtain ⟨hk2, hp2, hpend2, hcalls2, hemits2, hres2⟩ := hrest
    have hcons : clientRun s (op :: ops) = clientRun (clientStep s op) ops :=
      rfl
    refine ⟨hk2, hp2, hpend2, by rw [hcons, hcalls2, hcalls1],
      by rw [hcons, hemits2, hemits1], ?_⟩
    intro r hr
    rw [show clientRun s (op :: ops) = clientRun (clientStep s op) ops from rfl]
      at hr
    rcases hres2 r hr with hr' | hr'
    · exact hres1 r hr'
    · exact Or.inr hr'

end Rift

/-- C2: credential expiry is sticky.  (1) When the head task of a running
queue receives the first 403: the queue hard-pauses, the in-flight task
fails, every task still queued is rejected with a credential-expired
error, the HTTP call count rises by exactly one, and `key-expired` is
emitted exactly once.  (2) From that hard-paused state, any sequence of
operations not containing a successful `reloadKey` keeps the hard pause:
no HTTP call is ever made, nothing further is emitted, and every newly
recorded task outcome is an immediate no-HTTP rejection.  (3) A
`reloadKey` with a key present returns the client to Running: a newly
submitted task is enqueued and dispatches (one new HTTP call, completing
successfully). -/
theorem c2_credential_expiry_sticky :
    (∀ (s : Rift.ClientState) (h : Nat) (t : List Nat),
      s.pending = h :: t → s.hardPaused = false → s.keyExpired = false →
      (Rift.clientStep s .dispatch403).keyExpired = true ∧
      (Rift.clientStep s .dispatch403).hardPaused = true ∧
      (Rift.clientStep s .dispatch403).pending = [] ∧
      (Rift.clientStep s .dispatch403).httpCalls = s.httpCalls + 1 ∧
      (Rift.clientStep s .dispatch403).keyExpiredEmits =
        s.keyExpiredEmits + 1 ∧
      (Rift.clientStep s .dispatch403).results =
        (s.results ++ [(h, Rift.TaskOutcome.failed403)]) ++
          t.map (fun x => (x, Rift.TaskOutcome.rejectedCredentialExpired))) ∧
    (∀ (s : Rift.ClientState) (ops : List Rift.ClientOp),
      s.keyExpired = true → s.hardPaused = true → s.pending = [] →
      (∀ op ∈ ops, op ≠ Rift.ClientOp.reloadKey true) →
      (Rift.clientRun s ops).keyExpired = true ∧
      (Rift.clientRun s ops).httpCalls = s.httpCalls ∧
      (Rift.clientRun s ops).keyExpiredEmits = s.keyExpiredEmits ∧
      ∀ r ∈ (Rift.clientRun s ops).results,
        r ∈ s.results ∨ r.2 = Rift.TaskOutcome.rejectedNoHttp) ∧
    (∀ s : Rift.ClientState,
      s.keyExpired = true → s.hardPaused = true → s.pending = [] →
      (Rift.clientRun s
          [Rift.ClientOp.reloadKey true, .submit, .dispatchOk]).keyExpired =
        false ∧
      (Rift.clientRun s
          [Rift.ClientOp.reloadKey true, .submit, .dispatchOk]).hardPaused =
        false ∧
      (Rift.clientRun s
          [Rift.ClientOp.reloadKey true, .submit, .dispatchOk]).httpCalls =
        s.httpCalls + 1 ∧
      (s.nextId, Rift.TaskOutcome.completed) ∈
        (Rift.clientRun s
          [Rift.ClientOp.reloadKey true, .submit, .dispatchOk]).results) := by
  refine ⟨?_, ?_, ?_⟩
  · intro s h t hpend hp hk
    refine ⟨?_, ?_, ?_, ?_, ?_, ?_⟩ <;>
      simp [Rift.clientStep, hpend, hp, hk]
  · intro s ops hk hp hpend hops
    have h := Rift.clientRun_sticky ops s hk hp hpend hops
    exact ⟨h.1, h.2.2.2.1, h.2.2.2.2.1, h.2.2.2.2.2⟩
  · intro s hk hp hpend
    refine ⟨?_, ?_, ?_, ?_⟩ <;>
      simp [Rift.clientRun, Rift.clientStep, hpend]

/-- Witness for C2, realizing scenario S5: three tasks queued, the first
response is a 403 — task 0 fails, tasks 1 and 2 reject with the
credential-expired error, one `key-expired` emission; from the paused
state a further submit and dispatch make no HTTP call; after
`reloadKey()` with a key, a fourth task dispatches successfully. -/
theorem c2_credential_expiry_sticky_witness :
    (Rift.clientStep ⟨false, false, [0, 1, 2], 3, 0, [], 1⟩
        .dispatch403).results =
      [(0, Rift.TaskOutcome.failed403),
        (1, Rift.TaskOutcome.rejectedCredentialExpired),
        (2, Rift.TaskOutcome.rejectedCredentialExpired)] ∧
    (Rift.clientStep ⟨false, false, [0, 1, 2], 3, 0, [], 1⟩
        .dispatch403).keyExpiredEmits = 1 ∧
    (Rift.clientRun ⟨true, true, [], 3, 1, [], 1⟩
        [Rift.ClientOp.submit, .dispatch403]).httpCalls = 1 ∧
    (Rift.clientRun ⟨true, true, [], 3, 1, [], 1⟩
        [Rift.ClientOp.submit, .dispatch403]).keyExpiredEmits = 1 ∧
    (3, Rift.TaskOutcome.completed) ∈
      (Rift.clientRun ⟨true, true, [], 3, 1, [], 1⟩
        [Rift.ClientOp.reloadKey true, .submit, .dispatchOk]).results := by
  have h1 := c2_credential_expiry_sticky.1 ⟨false, false, [0, 1, 2], 3, 0, [], 1⟩
    0 [1, 2] rfl rfl rfl
  have h2 := c2_credential_expiry_sticky.2.1 ⟨true, true, [], 3, 1, [], 1⟩
    [Rift.ClientOp.submit, .dispatch403] rfl rfl rfl (by decide)
  have h3 := c2_credential_expiry_sticky.2.2 ⟨true, true, [], 3, 1, [], 1⟩
    rfl rfl rfl
  refine ⟨by simpa using h1.2.2.2.2.2, by simpa using h1.2.2.2.2.1,
    by simpa using h2.2.1, by simpa using h2.2.2.1, h3.2.2.2⟩

/-! ## Game-phase state machine (`state-machine.js`) -/

namespace Rift

/-- Canonical game phases (`GamePhase` in the source). -/
inductive GamePhase where
  | IDLE
  | LOBBY
  | CHAMP_SELECT
  | LOADING
  | IN_GAME
  | POST_GAME
deriving Repr, DecidableEq

/-- `LCU_PHASE_MAP`: raw LCU gameflow phase strings to canonical phases;
`none` models an `undefined` lookup (string not in the map). -/
def lcuPhaseMap (s : String) : Option GamePhase :=
  if s = "None" then some .IDLE
  else if s = "Lobby" then some .LOBBY
  else if s = "Matchmaking" then some .LOBBY
  else if s = "ReadyCheck" then some .LOBBY
  else if s = "ChampSelect" then some .CHAMP_SELECT
  else if s = "GameStart" then some .LOADING
  else if s = "InProgress" then some .IN_GAME
  else if s = "WaitingForStats" then some .POST_GAME
  else if s = "PreEndOfGame" then some .POST_GAME
  else if s = "EndOfGame" then some .POST_GAME
  else none

/-- `VALID_TRANSITIONS`: the advisory edge list (used only to decide
whether to log a warning; never blocks a transition). -/
def validTransitions : GamePhase → List GamePhase
  | .IDLE => [.LOBBY]
  | .LOBBY => [.CHAMP_SELECT, .IDLE]
  | .CHAMP_SELECT => [.LOADING, .LOBBY]
  | .LOADING => [.IN_GAME]
  | .IN_GAME => [.POST_GAME]
  | .POST_GAME => [.IDLE, .LOBBY]

/-- Result of one `transition(newPhase)` call: the new current phase, the
`(from, to)` callback emission if any, and the returned boolean. -/
structure TransitionResult where
  current : GamePhase
  emitted : Option (GamePhase × GamePhase)
  returned : Bool
deriving Repr, DecidableEq

/-- `GamePhaseStateMachine.transition`: a same-phase input is a no-op
returning `false`; otherwise the phase is applied and `(from, to)` is
emitted — an invalid edge is merely logged, never blocked. -/
def transition (current newPhase : GamePhase) : TransitionResult :=
  if newPhase = current then ⟨current, none, false⟩
  else ⟨newPhase, some (current, newPhase), true⟩

/-- `GamePhaseStateMachine.transitionFromLCU`: map the raw string; an
unmapped (falsy) result transitions to `IDLE`. -/
def transitionFromLCU (current : GamePhase) (lcuPhase : String) :
    TransitionResult :=
  match lcuPhaseMap lcuPhase with
  | none => transition current .IDLE
  | some mapped => transition current mapped

/-- Modelled from the claim's words (not the source): the claim's mapping
table sends `None`, `Matchmaking`, `ReadyCheck`, `ChampSelect`,
`GameStart`, `InProgress`, `WaitingForStats`, `PreEndOfGame`,
`EndOfGame` to their phases and *anything else* — which, as written,
includes the raw string `"Lobby"` — to `Idle`. -/
def claimedPhaseMap (s : String) : GamePhase :=
  if s = "None" then .IDLE
  else if s = "Matchmaking" then .LOBBY
  else if s = "ReadyCheck" then .LOBBY
  else if s = "ChampSelect" then .CHAMP_SELECT
  else if s = "GameStart" then .LOADING
  else if s = "InProgress" then .IN_GAME
  else if s = "WaitingForStats" then .POST_GAME
  else if s = "PreEndOfGame" then .POST_GAME
  else if s = "EndOfGame" then .POST_GAME
  else .IDLE

end Rift

/-- C9 counterexample: the claim's mapping omits the raw string `"Lobby"`,
so its catch-all sends `"Lobby"` to `Idle` — under the claim, feeding
`"Lobby"` in phase `Idle` would be a no-op.  The code maps `"Lobby"` to
`LOBBY` and emits a transition. -/
theorem c9_counterexample :
    Rift.claimedPhaseMap "Lobby" = Rift.GamePhase.IDLE ∧
    Rift.lcuPhaseMap "Lobby" = some Rift.GamePhase.LOBBY ∧
    Rift.transitionFromLCU Rift.GamePhase.IDLE "Lobby" =
      ⟨Rift.GamePhase.LOBBY,
        some (Rift.GamePhase.IDLE, Rift.GamePhase.LOBBY), true⟩ := by
  refine ⟨by rfl, by rfl, by rfl⟩

/-- C9 (amended): the map also sends `"Lobby"` to `Lobby`; with that
entry added the claim holds: each listed string maps as stated, any
string outside the map transitions to `Idle`, a same-phase input is a
no-op (no emission, returns `false`), and an input forming a disallowed
edge is still applied, with the transition emitted. -/
theorem c9_phase_mapping_and_transition :
    (Rift.lcuPhaseMap "None" = some .IDLE ∧
      Rift.lcuPhaseMap "Lobby" = some .LOBBY ∧
      Rift.lcuPhaseMap "Matchmaking" = some .LOBBY ∧
      Rift.lcuPhaseMap "ReadyCheck" = some .LOBBY ∧
      Rift.lcuPhaseMap "ChampSelect" = some .CHAMP_SELECT ∧
      Rift.lcuPhaseMap "GameStart" = some .LOADING ∧
      Rift.lcuPhaseMap "InProgress" = some .IN_GAME ∧
      Rift.lcuPhaseMap "WaitingForStats" = some .POST_GAME ∧
      Rift.lcuPhaseMap "PreEndOfGame" = some .POST_GAME ∧
      Rift.lcuPhaseMap "EndOfGame" = some .POST_GAME) ∧
    (∀ (s : String) (current : Rift.GamePhase),
      s ∉ ["None", "Lobby", "Matchmaking", "ReadyCheck", "ChampSelect",
        "GameStart", "InProgress", "WaitingForStats", "PreEndOfGame",
        "EndOfGame"] →
      Rift.transitionFromLCU current s = Rift.transition current .IDLE) ∧
    (∀ p : Rift.GamePhase, Rift.transition p p = ⟨p, none, false⟩) ∧
    (∀ current newPhase : Rift.GamePhase, newPhase ≠ current →
      newPhase ∉ Rift.validTransitions current →
      Rift.transition current newPhase =
        ⟨newPhase, some (current, newPhase), true⟩) := by
  refine ⟨?_, ?_, ?_, ?_⟩
  · exact ⟨rfl, rfl, rfl, rfl, rfl, rfl, rfl, rfl, rfl, rfl⟩
  · intro s current hs
    simp only [List.mem_cons, List.not_mem_nil, or_false, not_or] at hs
    obtain ⟨h1, h2, h3, h4, h5, h6, h7, h8, h9, h10⟩ := hs
    simp [Rift.transitionFromLCU, Rift.lcuPhaseMap,
      h1, h2, h3, h4, h5, h6, h7, h8, h9, h10]
  · intro p
    simp [Rift.transition]
  · intro current newPhase hne _
    simp [Rift.transition, hne]

/-- Witness for C9 (amended): the unmapped string `"TerminatedInError"`
from `IN_GAME` forces a transition to `IDLE`; a repeated `"InProgress"`
in `IN_GAME` is a no-op; the disallowed edge `IDLE → IN_GAME` is applied
and emitted. -/
theorem c9_phase_mapping_and_transition_witness :
    Rift.transitionFromLCU Rift.GamePhase.IN_GAME "TerminatedInError" =
      ⟨Rift.GamePhase.IDLE,
        some (Rift.GamePhase.IN_GAME, Rift.GamePhase.IDLE), true⟩ ∧
    Rift.transitionFromLCU Rift.GamePhase.IN_GAME "InProgress" =
      ⟨Rift.GamePhase.IN_GAME, none, false⟩ ∧
    Rift.transition Rift.GamePhase.IDLE Rift.GamePhase.IN_GAME =
      ⟨Rift.GamePhase.IN_GAME,
        some (Rift.GamePhase.IDLE, Rift.GamePhase.IN_GAME), true⟩ := by
  have h2 := c9_phase_mapping_and_transition.2.1 "TerminatedInError"
    Rift.GamePhase.IN_GAME (by decide)
  have h4 := c9_phase_mapping_and_transition.2.2.2 Rift.GamePhase.IDLE
    Rift.GamePhase.IN_GAME (by decide) (by decide)
  exact ⟨by rw [h2]; rfl, by rfl, h4⟩

/-! ## Live-client event poller (`live-client.js`) -/

namespace Rift

/-- State of the event-polling timer: the highest `EventID` seen
(`#lastEventId`, initialized to `-1` by `startPolling`). -/
structure EventPollState where
  lastEventId : Int
deriving Repr, DecidableEq

/-- `Math.max(...l)` for a nonempty list (the poller only applies it to a
nonempty `newEvents`). -/
def jsMaxList (l : List Int) : Int :=
  match l with
  | [] => 0
  | h :: t => t.foldl Max.max h

/-- One tick of the event timer, given the `EventID`s of
`eventData.Events`: keep the events with id above `#lastEventId`; if any
remain, record their maximum and emit them. -/
def pollStep (s : EventPollState) (events : List Int) :
    EventPollState × Option (List Int) :=
  let newEvents := events.filter (fun e => s.lastEventId < e)
  if newEvents.isEmpty then (s, none)
  else (⟨jsMaxList newEvents⟩, some newEvents)

/-- Run the event timer over a sequence of polls, collecting the
`new-events` emissions in order. -/
def pollRun (s : EventPollState) :
    List (List Int) → EventPollState × List (List Int)
  | [] => (s, [])
  | poll :: polls =>
    let step := pollStep s poll
    let rest := pollRun step.1 polls
    (rest.1, step.2.toList ++ rest.2)

/-- Helper: a `foldl Max.max` is at least its initial value. -/
theorem foldl_max_ge_init (t : List Int) :
    ∀ acc : Int, acc ≤ t.foldl Max.max acc := by
  induction t with
  | nil => exact fun acc => le_refl acc
  | cons x t ih =>
    intro acc
    exact le_trans (le_max_left acc x) (ih (Max.max acc x))

/-- Helper: a `foldl Max.max` is at least every list element. -/
theorem foldl_max_ge_mem (t : List Int) :
    ∀ (acc x : Int), x ∈ t → x ≤ t.foldl Max.max acc := by
  induction t with
  | nil => intro acc x hx; simp at hx
  | cons y t ih =>
    intro acc x hx
    rcases List.mem_cons.1 hx with hx | hx
    · subst hx
      exact le_trans (le_max_right acc x) (foldl_max_ge_init t _)
    · exact ih (Max.max acc y) x hx

/-- Helper: `jsMaxList` bounds every element of the list. -/
theorem jsMaxList_ge (l : List Int) (x : Int) (hx : x ∈ l) :
    x ≤ jsMaxList l := by
  cases l with
  | nil => simp at hx
  | cons h t =>
    rcases List.mem_cons.1 hx with hx | hx
    · subst hx
      exact foldl_max_ge_init t x
    · exact foldl_max_ge_mem t h x hx

/-- Helper: every emission of a poll run contains only ids strictly above
the starting `lastEventId`, and emissions are pairwise strictly
increasing. -/
theorem pollRun_mono (polls : List (List Int)) :
    ∀ s : EventPollState,
    (∀ E ∈ (pollRun s polls).2, ∀ x ∈ E, s.lastEventId < x) ∧
    (pollRun s polls).2.Pairwise (fun E F => ∀ x ∈ E, ∀ y ∈ F, x < y) := by
  induction polls with
  | nil => exact fun s => ⟨by simp [pollRun], by simp [pollRun]⟩
  | cons poll polls ih =>
    intro s
    by_cases hempty : (poll.filter (fun e => s.lastEventId < e)).isEmpty
    · have hstep : pollStep s poll = (s, none) := by
        simp [pollStep, hempty]
      constructor
      · intro E hE x hx
        simp only [pollRun, hstep, Option.toList_none, List.nil_append] at hE
        exact (ih s).1 E hE x hx
      · simp only [pollRun, hstep, Option.toList_none, List.nil_append]
        exact (ih s).2
    · set newEvents := poll.filter (fun e => s.lastEventId < e) with hnew
      have hstep : pollStep s poll = (⟨jsMaxList newEvents⟩, some newEvents) := by
        simp [pollStep, hempty, hnew]
      have hmem : ∀ x ∈ newEvents, s.lastEventId < x := by
        intro x hx
        rw [hnew] at hx
        have := List.of_mem_filter hx
        simpa using this
      have htail := ih ⟨jsMaxList newEvents⟩
      have hbump : ∀ E ∈ (pollRun ⟨jsMaxList newEvents⟩ polls).2, ∀ y ∈ E,
          jsMaxList newEvents < y := htail.1
      constructor
      · intro E hE x hx
        simp only [pollRun, hstep, Option.toList_some, List.cons_append,
          List.nil_append, List.mem_cons] at hE
        rcases hE with hE | hE
        · subst hE
          exact hmem x hx
        · have hne : newEvents ≠ [] := by
            intro hc
            rw [hc] at hempty
            simp at hempty
          obtain ⟨w, hw⟩ := List.exists_mem_of_ne_nil newEvents hne
          have h1 : s.lastEventId < w := hmem w hw
          have h2 : w ≤ jsMaxList newEvents := jsMaxList_ge newEvents w hw
          have h3 : jsMaxList newEvents < x := hbump E hE x hx
          omega
      · simp only [pollRun, hstep, Option.toList_some, List.cons_append,
          List.nil_append]
        refine List.Pairwise.cons ?_ htail.2
        intro F hF x hx y hy
        have h2 : x ≤ jsMaxList newEvents := jsMaxList_ge newEvents x hx
        have h3 : jsMaxList newEvents < y := hbump F hF y hy
        omega

end Rift

/-- C8: event monotonic delivery.  Polling starts with `#lastEventId =
-1`; over any sequence of event polls, the `new-events` emissions are
pairwise strictly increasing: every `EventID` in an emission is strictly
greater than every `EventID` in any earlier emission. -/
theorem c8_event_monotonic_delivery (polls : List (List Int)) :
    (Rift.pollRun ⟨-1⟩ polls).2.Pairwise
      (fun E F => ∀ x ∈ E, ∀ y ∈ F, x < y) :=
  (Rift.pollRun_mono polls ⟨-1⟩).2

/-! ## Orchestrator advisor handover (`orchestrator.js`) -/

namespace Rift

/-- `PHASE_AGENT_MAP`: the advisor to run in each phase. -/
def phaseAgentMap : GamePhase → Option String
  | .IDLE => none
  | .LOBBY => none
  | .CHAMP_SELECT => some "drafting-oracle"
  | .LOADING => none
  | .IN_GAME => some "macro-strategist"
  | .POST_GAME => some "tilt-guard"

/-- Advisor lifecycle milestones, in the order the orchestrator's
transition handler reaches them. -/
inductive LifecycleEvent where
  | deactivateDone (agentId : String)
  | activateBegin (agentId : String)
deriving Repr, DecidableEq

/-- Whether a lifecycle event is an activation. -/
def LifecycleEvent.isActivate : LifecycleEvent → Bool
  | .activateBegin _ => true
  | .deactivateDone _ => false

/-- `Orchestrator.#onPhaseTransition(from, to)` as the ordered sequence of
advisor lifecycle milestones it produces.  The handler first calls
`#deactivateAgent(PHASE_AGENT_MAP[from])`, then
`#activateAgent(PHASE_AGENT_MAP[to])`, both without `await`; every
`onDeactivate` body in the source agents is await-free, so the un-awaited
call chain `#deactivateAgent → BaseAgent.stop → onDeactivate` still runs
the whole `onDeactivate` body synchronously before control returns to the
handler and the activation call chain reaches `onActivate`.
`#activateAgent` skips an agent that is already active (`#activeAgents`
still holds the outgoing agent at this point, since its deletion happens
after the awaited `stop()` settles) or disabled in settings
(`agent_<name>_enabled === "false"`, here `enabled a = false`). -/
def onPhaseTransition (fromP toP : GamePhase) (active : List String)
    (enabled : String → Bool) : List LifecycleEvent :=
  (match phaseAgentMap fromP with
    | some a => if a ∈ active then [LifecycleEvent.deactivateDone a] else []
    | none => []) ++
  (match phaseAgentMap toP with
    | some a =>
      if a ∈ active then []
      else if enabled a then [LifecycleEvent.activateBegin a] else []
    | none => [])

end Rift

/-- C3: advisor handover ordering.  Every phase transition produces a
lifecycle sequence that splits as `deactivations ++ activations` with at
most one of each: at most one advisor is started for the new phase, and
the outgoing advisor's `onDeactivate` completes before the incoming
advisor's `onActivate` begins. -/
theorem c3_advisor_handover (fromP toP : Rift.GamePhase)
    (active : List String) (enabled : String → Bool) :
    ∃ d a : List Rift.LifecycleEvent,
      Rift.onPhaseTransition fromP toP active enabled = d ++ a ∧
      (∀ e ∈ d, ∃ x, e = Rift.LifecycleEvent.deactivateDone x) ∧
      (∀ e ∈ a, ∃ x, e = Rift.LifecycleEvent.activateBegin x) ∧
      d.length ≤ 1 ∧ a.length ≤ 1 := by
  refine ⟨(match Rift.phaseAgentMap fromP with
    | some a => if a ∈ active then [Rift.LifecycleEvent.deactivateDone a] else []
    | none => []),
    (match Rift.phaseAgentMap toP with
    | some a =>
      if a ∈ active then []
      else if enabled a then [Rift.LifecycleEvent.activateBegin a] else []
    | none => []), rfl, ?_, ?_, ?_, ?_⟩
  · cases hm : Rift.phaseAgentMap fromP with
    | none => intro e he; simp at he
    | some x =>
      intro e he
      by_cases hx : x ∈ active
      · simp [hx] at he
        exact ⟨x, he⟩
      · simp [hx] at he
  · cases hm : Rift.phaseAgentMap toP with
    | none => intro e he; simp at he
    | some x =>
      intro e he
      by_cases hx : x ∈ active
      · simp [hx] at he
      · by_cases hen : enabled x
        · simp [hx, hen] at he
          exact ⟨x, he⟩
        · simp [hx, hen] at he
  · cases hm : Rift.phaseAgentMap fromP with
    | none => simp
    | some x =>
      by_cases hx : x ∈ active
      · simp [hx]
      · simp [hx]
  · cases hm : Rift.phaseAgentMap toP with
    | none => simp
    | some x =>
      by_cases hx : x ∈ active
      · simp [hx]
      · by_cases hen : enabled x
        · simp [hx, hen]
        · simp [hx, hen]

/-! ## Tactical trigger detector (`triggers.js`)

The free-text `detail` field of a trigger (logging / LLM context only) is
elided; all decision-relevant fields are kept. -/

namespace Rift

/-- Trigger urgency (`"info" | "suggestion" | "urgent"`). -/
inductive Urgency where
  | info
  | suggestion
  | urgent
deriving Repr, DecidableEq

/-- The `MacroTrigger` constants. -/
inductive TriggerKind where
  | throwGuard
  | baronWindow
  | contestSoul
  | rushBaron
  | catchWave
  | winCondition
  | baronBait
  | goldSwing
  | objectiveTaken
  | ace
  | powerSpike
  | deathTimerLong
  | towerDestroyed
  | inhibKilled
deriving Repr, DecidableEq

/-- A `TriggerResult` (without the free-text `detail`). -/
structure TriggerResult where
  trigger : TriggerKind
  urgency : Urgency
  localCall : Option String
  localCallType : Option String
  claudeWorthy : Bool
deriving Repr, DecidableEq

/-- Scoreboard stats of one player (`scores`; absent fields read as 0). -/
structure Scores where
  creepScore : Nat
  kills : Nat
  assists : Nat
deriving Repr, DecidableEq

/-- One entry of `allPlayers`, restricted to the fields the detector
reads.  `name` models the resolved `riotId || summonerName`. -/
structure Player where
  name : String
  championName : String
  team : String
  position : String
  isDead : Bool
  respawnTimer : ℚ
  scores : Scores
deriving Repr, DecidableEq

/-- The `activePlayer` fields the detector reads; `name` models the
resolved `riotId || summonerName`. -/
structure ActivePlayer where
  name : String
  championName : String
  level : Nat
deriving Repr, DecidableEq

/-- An `AllGameData` snapshot, restricted to what the detector reads
(`gameTime` models `gameData?.gameTime || 0`). -/
structure Snapshot where
  activePlayer : Option ActivePlayer
  allPlayers : List Player
  gameTime : ℚ
deriving Repr, DecidableEq

/-- JavaScript `Map` lookup over an association list. -/
def mapGet {α β : Type} [DecidableEq α] (m : List (α × β)) (k : α) :
    Option β :=
  (m.find? (fun p => p.1 = k)).map (fun p => p.2)

/-- JavaScript `Map.set` over an association list (replace or append). -/
def mapSet {α β : Type} [DecidableEq α] (m : List (α × β)) (k : α) (v : β) :
    List (α × β) :=
  if (m.find? (fun p => p.1 = k)).isSome then
    m.map (fun p => if p.1 = k then (k, v) else p)
  else m ++ [(k, v)]

/-- `Math.min(...l)` for a nonempty list (the detector only applies it to
a nonempty `deadEnemies`). -/
def jsMinList (l : List ℚ) : ℚ :=
  match l with
  | [] => 0
  | h :: t => t.foldl Min.min h

/-- JavaScript `Math.round (x * 0.7)` for a natural `x`:
`0.7 * x = 7x/10`, rounded half away from zero = `⌊(7x + 5) / 10⌋`. -/
def jsRound7Tenths (x : Nat) : Nat :=
  (7 * x + 5) / 10

/-- Detector state (`TriggerDetector`'s private fields).  Sets are
association-free lists with membership-guarded insertion; maps are
association lists. -/
structure DetectorState where
  localTeam : Option String
  localPlayerName : Option String
  playerTeamMap : List (String × String)
  goldHistory : List (ℚ × Nat × Nat)
  lastReportedGoldLead : Int
  allyDrakeCount : Nat
  enemyDrakeCount : Nat
  lastDrakeKillTime : ℚ
  lastBaronKillTime : ℚ
  recentAllyDeathTimes : List ℚ
  turretsDestroyed : List ((String × String) × Nat)
  allyInhibsDown : List String
  enemyInhibsDown : List String
  playerLevels : List (String × Nat)
  seenEventIds : List String
deriving Repr, DecidableEq

/-- `reset()` / a freshly constructed detector. -/
def DetectorState.reset : DetectorState :=
  ⟨none, none, [], [], 0, 0, 0, 0, 0, [], [], [], [], [], []⟩

/-- `isBaronUp(gameTime)`: baron first spawns at 1200 s and respawns
360 s after each kill. -/
def isBaronUp (st : DetectorState) (gameTime : ℚ) : Bool :=
  if gameTime < 1200 then false
  else if st.lastBaronKillTime = 0 then true
  else st.lastBaronKillTime + 360 ≤ gameTime

/-- `#estimateTeamGold`: creep-score × 20 + kills × 300 + assists × 150,
summed over the team. -/
def estimateTeamGold (players : List Player) : Nat :=
  players.foldl
    (fun sum p =>
      sum + p.scores.creepScore * 20 + p.scores.kills * 300 +
        p.scores.assists * 150)
    0

/-- `#checkSideLanePressure`: first side lane (top, then bot) with ≥ 2 of
our turrets down whose assigned lane ally is dead yields a local
`CATCH_WAVE` suggestion.  (The source's unused `gameTime` parameter is
dropped.) -/
def sideLaneCheck (st : DetectorState) (team : String)
    (allies : List Player) (lane : String) : Option TriggerResult :=
  let turretsLost := (mapGet st.turretsDestroyed (team, lane)).getD 0
  if turretsLost < 2 then none
  else
    let role := if lane = "top" then "TOP" else "BOTTOM"
    match allies.find? (fun p => p.position = role) with
    | some laneAlly =>
      if laneAlly.isDead then
        some (TriggerResult.mk .catchWave .suggestion
          (some ((if lane = "top" then "CATCH TOP" else "CATCH BOT") ++
            " WAVE — Turrets exposed"))
          (some "CATCH_WAVE") false)
      else none
    | none => none

/-- The loop of `#checkSideLanePressure` over the side lanes, top first. -/
def checkSideLanePressure (st : DetectorState) (team : String)
    (allies : List Player) : Option TriggerResult :=
  match sideLaneCheck st team allies "top" with
  | some t => some t
  | none => sideLaneCheck st team allies "bot"

/-- The lane scan of `#checkWinCondition`: the largest per-lane count of
destroyed enemy turrets. -/
def maxEnemyTurretsDown (st : DetectorState) (enemyTeam : String) : Nat :=
  ["top", "mid", "bot"].foldl
    (fun best lane =>
      let down := (mapGet st.turretsDestroyed (enemyTeam, lane)).getD 0
      if best < down then down else best)
    0

/-- The push-time estimate of `#checkWinCondition`:
`max(0, 5 − maxTurretsDown) × 18 + 10`, multiplied by 0.7 (rounded) when
any enemy inhibitor is down. -/
def estimatedPushTime (st : DetectorState) (enemyTeam : String) : Nat :=
  let structuresRemaining := 5 - maxEnemyTurretsDown st enemyTeam
  let base := structuresRemaining * 18 + 10
  if st.enemyInhibsDown.isEmpty then base else jsRound7Tenths base

/-- `#checkWinCondition`: ≥ 3 dead enemies including the (dead) enemy
jungler, minimum respawn among the dead ≥ 15 s, and estimated push-time
strictly below that minimum respawn → local urgent `WIN_CONDITION`. -/
def checkWinCondition (st : DetectorState) (enemies : List Player)
    (enemyJungler : Option Player) : Option TriggerResult :=
  let deadEnemies := enemies.filter (fun p => p.isDead)
  if deadEnemies.length < 3 then none
  else
    match enemyJungler with
    | none => none
    | some jg =>
      if !jg.isDead then none
      else
        let minRespawn := jsMinList (deadEnemies.map (fun p => p.respawnTimer))
        if minRespawn < 15 then none
        else
          match enemies.head? with
          | none => none
          | some e0 =>
            if (estimatedPushTime st e0.team : ℚ) < minRespawn then
              some (TriggerResult.mk .winCondition .urgent
                (some "WIN CONDITION ACTIVE — PUSH TO END")
                (some "WIN_CONDITION") false)
            else none

/-- `evaluateSnapshot`: the full per-snapshot evaluation.  Returns the
updated detector state and the trigger list, in the source's push order:
throw-guard; baron window / contest soul / rush baron; side-lane;
win condition; baron bait; ace; gold swing; long death timers; power
spike. -/
def evaluateSnapshot (st : DetectorState) (snap : Snapshot) :
    DetectorState × List TriggerResult :=
  if snap.allPlayers.isEmpty ∨ snap.activePlayer.isNone then (st, [])
  else
    match snap.activePlayer with
    | none => (st, [])
    | some ap =>
      let gameTime := snap.gameTime
      let st1 :=
        if st.localTeam.isNone then
          match snap.allPlayers.find? (fun p => p.name = ap.name) with
          | some lp =>
            { st with
              localPlayerName := some ap.name,
              localTeam := some lp.team }
          | none => { st with localPlayerName := some ap.name }
        else st
      match st1.localTeam with
      | none => (st1, [])
      | some team =>
        let st2 := { st1 with
          playerTeamMap := snap.allPlayers.foldl
            (fun m p =>
              mapSet m (if p.name.isEmpty then p.championName else p.name)
                p.team)
            st1.playerTeamMap }
        let allies := snap.allPlayers.filter (fun p => p.team = team)
        let enemies := snap.allPlayers.filter (fun p => ¬ p.team = team)
        let enemyJungler := enemies.find? (fun p => p.position = "JUNGLE")
        let allyGold := estimateTeamGold allies
        let enemyGold := estimateTeamGold enemies
        let goldLead : Int := (allyGold : Int) - (enemyGold : Int)
        let gh0 := st2.goldHistory ++ [(gameTime, allyGold, enemyGold)]
        let gh := if 20 < gh0.length then gh0.drop (gh0.length - 15) else gh0
        let baronUp := isBaronUp st2 gameTime
        let deaths := st2.recentAllyDeathTimes.filter
          (fun t => gameTime - t < 30)
        let st3 := { st2 with
          goldHistory := gh,
          recentAllyDeathTimes := deaths }
        let t1 :=
          if 3000 < goldLead ∧ 2 ≤ deaths.length then
            [TriggerResult.mk .throwGuard .urgent
              (some "RESET NOW — DON'T THROW BOUNTY") (some "RESET_NOW")
              false]
          else []
        let t2 :=
          if baronUp ∧ (1200 : ℚ) ≤ gameTime then
            (match enemyJungler with
              | some jg =>
                if jg.isDead ∧ 15 < jg.respawnTimer then
                  [TriggerResult.mk .baronWindow .urgent none none true]
                else []
              | none => []) ++
            (if 3 ≤ st3.enemyDrakeCount then
              [TriggerResult.mk .contestSoul .urgent
                (some "CONTEST SOUL — Enemy on Soul Point")
                (some "CONTEST_OBJECTIVE") false]
            else []) ++
            (if 3 ≤ st3.allyDrakeCount then
              [TriggerResult.mk .rushBaron .urgent
                (some "RUSH BARON — Force lose-lose trade")
                (some "BARON_CALL") false]
            else [])
          else []
        let t3 :=
          if (840 : ℚ) < gameTime then
            (checkSideLanePressure st3 team allies).toList
          else []
        let t4 :=
          if (1500 : ℚ) < gameTime then
            (checkWinCondition st3 enemies enemyJungler).toList
          else []
        let t5 :=
          if ¬ st3.enemyInhibsDown.isEmpty ∧ baronUp ∧
              (1200 : ℚ) ≤ gameTime ∧ st3.allyDrakeCount < 3 then
            [TriggerResult.mk .baronBait .suggestion
              (some "BARON BAIT — Inhib down, punish face-checks")
              (some "BARON_BAIT") false]
          else []
        let t6 :=
          if ¬ enemies.isEmpty ∧ enemies.all (fun p => p.isDead) then
            [TriggerResult.mk .ace .urgent none none true]
          else []
        let goldSwing := (goldLead - st3.lastReportedGoldLead).natAbs
        let stepSwing :=
          if 1000 ≤ goldSwing then
            ({ st3 with lastReportedGoldLead := goldLead },
              [TriggerResult.mk .goldSwing .suggestion none none true])
          else (st3, [])
        let st4 := stepSwing.1
        let t7 := stepSwing.2
        let longDead := enemies.filter
          (fun p => p.isDead ∧ 30 < p.respawnTimer)
        let t8 :=
          if 2 ≤ longDead.length then
            [TriggerResult.mk .deathTimerLong .suggestion none none true]
          else []
        let pname := st4.localPlayerName.getD "local"
        let prevLevel := (mapGet st4.playerLevels pname).getD 0
        let stepSpike :=
          if ap.level ≠ prevLevel then
            ({ st4 with
              playerLevels := mapSet st4.playerLevels pname ap.level },
              if (ap.level = 6 ∨ ap.level = 11 ∨ ap.level = 16) ∧
                  prevLevel < ap.level then
                [TriggerResult.mk .powerSpike .info none none false]
              else [])
          else (st4, [])
        (stepSpike.1, t1 ++ t2 ++ t3 ++ t4 ++ t5 ++ t6 ++ t7 ++ t8 ++
          stepSpike.2)

end Rift

namespace Rift

/-- Helper: a side-lane result is always a `catchWave` trigger. -/
theorem sideLaneCheck_kind (st : DetectorState) (team : String)
    (allies : List Player) (lane : String) (t : TriggerResult)
    (h : sideLaneCheck st team allies lane = some t) :
    t.trigger = .catchWave := by
  simp only [sideLaneCheck] at h
  by_cases hl : (mapGet st.turretsDestroyed (team, lane)).getD 0 < 2
  · rw [if_pos hl] at h
    simp at h
  · rw [if_neg hl] at h
    cases hf : allies.find?
        (fun p => p.position = if lane = "top" then "TOP" else "BOTTOM") with
    | none =>
      rw [hf] at h
      simp at h
    | some laneAlly =>
      rw [hf] at h
      by_cases hd : laneAlly.isDead
      · simp [hd] at h
        rw [← h]
      · simp [hd] at h

/-- Helper: the side-lane scan only ever yields a `catchWave` trigger. -/
theorem checkSideLanePressure_kind (st : DetectorState) (team : String)
    (allies : List Player) (t : TriggerResult)
    (h : checkSideLanePressure st team allies = some t) :
    t.trigger = .catchWave := by
  unfold checkSideLanePressure at h
  cases htop : sideLaneCheck st team allies "top" with
  | some u =>
    rw [htop, Option.some.injEq] at h
    subst h
    exact sideLaneCheck_kind st team allies "top" u htop
  | none =>
    rw [htop] at h
    exact sideLaneCheck_kind st team allies "bot" t h

/-- Helper: a win-condition result is always the fixed local urgent
`WIN_CONDITION` record. -/
theorem checkWinCondition_kind (st : DetectorState) (enemies : List Player)
    (ej : Option Player) (t : TriggerResult)
    (h : checkWinCondition st enemies ej = some t) :
    t = TriggerResult.mk .winCondition .urgent
      (some "WIN CONDITION ACTIVE — PUSH TO END") (some "WIN_CONDITION")
      false := by
  simp only [checkWinCondition] at h
  by_cases h3 : (enemies.filter (fun p => p.isDead)).length < 3
  · rw [if_pos h3] at h
    simp at h
  · rw [if_neg h3] at h
    cases ej with
    | none => simp at h
    | some jg =>
      cases hd : jg.isDead with
      | false => simp [hd] at h
      | true =>
        simp only [hd, Bool.not_true, Bool.false_eq_true, if_false] at h
        by_cases hmin : jsMinList ((enemies.filter (fun p => p.isDead)).map
            (fun p => p.respawnTimer)) < 15
        · rw [if_pos hmin] at h
          simp at h
        · rw [if_neg hmin] at h
          cases hh : enemies.head? with
          | none =>
            rw [hh] at h
            simp at h
          | some e0 =>
            rw [hh] at h
            by_cases hp : ((estimatedPushTime st e0.team : ℚ) <
                jsMinList ((enemies.filter (fun p => p.isDead)).map
                  (fun p => p.respawnTimer)))
            · simp [hp] at h
              rw [← h]
            · simp [hp] at h

/-- Helper: `#checkWinCondition` reads only the turret and enemy-inhib
state of the detector. -/
theorem checkWinCondition_congr (st st' : DetectorState)
    (enemies : List Player) (ej : Option Player)
    (h1 : st.turretsDestroyed = st'.turretsDestroyed)
    (h2 : st.enemyInhibsDown = st'.enemyInhibsDown) :
    checkWinCondition st enemies ej = checkWinCondition st' enemies ej := by
  unfold checkWinCondition estimatedPushTime maxEnemyTurretsDown
  rw [h1, h2]

/-- Helper: the win-condition test succeeds exactly under the claim's
conditions: ≥ 3 dead enemies, a dead enemy jungler, minimum dead-enemy
respawn at least 15 s, and estimated push-time strictly below it. -/
theorem checkWinCondition_iff (st : DetectorState) (e0 : Player)
    (rest : List Player) :
    (checkWinCondition st (e0 :: rest)
        ((e0 :: rest).find? (fun p => p.position = "JUNGLE"))).isSome ↔
      (3 ≤ ((e0 :: rest).filter (fun p => p.isDead)).length ∧
        (∃ jg, (e0 :: rest).find? (fun p => p.position = "JUNGLE") =
          some jg ∧ jg.isDead = true) ∧
        (15 : ℚ) ≤ jsMinList (((e0 :: rest).filter (fun p => p.isDead)).map
          (fun p => p.respawnTimer)) ∧
        ((estimatedPushTime st e0.team : ℚ) <
          jsMinList (((e0 :: rest).filter (fun p => p.isDead)).map
            (fun p => p.respawnTimer)))) := by
  unfold checkWinCondition
  by_cases h3 : ((e0 :: rest).filter (fun p => p.isDead)).length < 3
  · rw [if_pos h3]
    simp only [Option.isSome_none, Bool.false_eq_true, false_iff]
    intro hc
    omega
  · rw [if_neg h3]
    cases hj : (e0 :: rest).find? (fun p => p.position = "JUNGLE") with
    | none => simp
    | some jg =>
      cases hd : jg.isDead with
      | false => simp [hd]
      | true =>
        simp only [hd, Bool.not_true, Bool.false_eq_true, if_false]
        by_cases hmin : jsMinList (((e0 :: rest).filter
            (fun p => p.isDead)).map (fun p => p.respawnTimer)) < 15
        · rw [if_pos hmin]
          simp only [Option.isSome_none, Bool.false_eq_true, false_iff]
          intro hc
          exact absurd hc.2.2.1 (not_le.2 hmin)
        · rw [if_neg hmin]
          simp only [List.head?_cons]
          by_cases hpush : ((estimatedPushTime st e0.team : ℚ) <
              jsMinList (((e0 :: rest).filter (fun p => p.isDead)).map
                (fun p => p.respawnTimer)))
          · rw [if_pos hpush]
            simp only [Option.isSome_some, true_iff]
            exact ⟨by omega, ⟨jg, rfl, hd⟩, not_lt.1 hmin, hpush⟩
          · rw [if_neg hpush]
            simp only [Option.isSome_none, Bool.false_eq_true, false_iff]
            intro hc
            exact absurd hc.2.2.2 hpush

end Rift

namespace Rift

/-- Helper: the side-lane scan contributes nothing to a `winCondition`
filter. -/
theorem filter_winCond_sideLane (st : DetectorState) (team : String)
    (allies : List Player) :
    (checkSideLanePressure st team allies).toList.filter
      (fun t => t.trigger = TriggerKind.winCondition) = [] := by
  cases h : checkSideLanePressure st team allies with
  | none => rfl
  | some t =>
    have := checkSideLanePressure_kind st team allies t h
    simp [this]

/-- Helper: a `winCondition` filter keeps the whole win-condition
contribution. -/
theorem filter_winCond_keep (st : DetectorState) (enemies : List Player)
    (ej : Option Player) :
    (checkWinCondition st enemies ej).toList.filter
      (fun t => t.trigger = TriggerKind.winCondition) =
      (checkWinCondition st enemies ej).toList := by
  cases h : checkWinCondition st enemies ej with
  | none => rfl
  | some t =>
    have := checkWinCondition_kind st enemies ej t h
    simp [this]

/-- Helper: in a valid snapshot with the local team locked, the
`WIN_CONDITION` triggers of a snapshot evaluation are exactly the
win-condition check's result, gated on game-time > 1500 s (no other
branch of the evaluation produces that trigger kind, and the check reads
only detector fields the evaluation has not yet modified). -/
theorem evaluateSnapshot_winCondition_filter
    (st : DetectorState) (snap : Snapshot) (ap : ActivePlayer) (team : String)
    (hap : snap.activePlayer = some ap)
    (hne : snap.allPlayers.isEmpty = false)
    (hteam : st.localTeam = some team) :
    (evaluateSnapshot st snap).2.filter
        (fun t => t.trigger = TriggerKind.winCondition) =
      if (1500 : ℚ) < snap.gameTime then
        (checkWinCondition st
          (snap.allPlayers.filter (fun p => ¬ p.team = team))
          ((snap.allPlayers.filter (fun p => ¬ p.team = team)).find?
            (fun p => p.position = "JUNGLE"))).toList
      else [] := by
  unfold evaluateSnapshot
  rw [hap]
  simp only [hne, Option.isNone_some, Bool.false_eq_true, false_or, if_false,
    hteam]
  generalize List.find? (fun p => decide (p.position = "JUNGLE"))
      (List.filter (fun p => decide ¬p.team = team) snap.allPlayers) = ej
  cases ej with
  | none =>
    simp only [List.filter_append, apply_ite Prod.snd]
    simp only [List.filter_append, apply_ite
      (List.filter (fun t : TriggerResult =>
        decide (t.trigger = TriggerKind.winCondition)))]
    simp [filter_winCond_sideLane, filter_winCond_keep]
    exact congrArg (fun o => if (1500 : ℚ) < snap.gameTime then
      Option.toList o else []) (checkWinCondition_congr _ st _ _ rfl rfl)
  | some jg =>
    simp only [List.filter_append, apply_ite Prod.snd]
    simp only [List.filter_append, apply_ite
      (List.filter (fun t : TriggerResult =>
        decide (t.trigger = TriggerKind.winCondition)))]
    simp [filter_winCond_sideLane, filter_winCond_keep]
    exact congrArg (fun o => if (1500 : ℚ) < snap.gameTime then
      Option.toList o else []) (checkWinCondition_congr _ st _ _ rfl rfl)

/-- Scenario S6 of the spec: late game, enemy CHAOS team, jungler dead
for 50 s, two more dead for 40 s and 35 s, three enemy mid-lane turrets
down, enemy mid inhibitor down. -/
def s6State : DetectorState :=
  { DetectorState.reset with
    localTeam := some "ORDER",
    turretsDestroyed := [(("CHAOS", "mid"), 3)],
    enemyInhibsDown := ["mid"] }

/-- The S6 enemy team, jungler first. -/
def s6Enemies : List Player :=
  [⟨"jg", "LeeSin", "CHAOS", "JUNGLE", true, 50, ⟨0, 0, 0⟩⟩,
    ⟨"d1", "Ahri", "CHAOS", "MIDDLE", true, 40, ⟨0, 0, 0⟩⟩,
    ⟨"d2", "Jinx", "CHAOS", "BOTTOM", true, 35, ⟨0, 0, 0⟩⟩,
    ⟨"a1", "Ornn", "CHAOS", "TOP", false, 0, ⟨0, 0, 0⟩⟩,
    ⟨"a2", "Lulu", "CHAOS", "UTILITY", false, 0, ⟨0, 0, 0⟩⟩]

/-- The S6 snapshot at game-time 1700 s. -/
def s6Snapshot : Snapshot :=
  ⟨some ⟨"me", "Viktor", 18⟩,
    ⟨"me", "Viktor", "ORDER", "MIDDLE", false, 0, ⟨200, 5, 3⟩⟩ :: s6Enemies,
    1700⟩

end Rift

/-- C6: win-condition trigger.  For any detector state with the local
team locked and any valid snapshot: (1) the win-condition check fires iff
at least 3 enemies are dead including the (dead) enemy jungler, the
minimum respawn among the dead enemies is at least 15 s, and the
estimated push-time — `max(0, 5 − maxEnemyTurretsDownInAnyLane) × 18 +
10`, multiplied by 0.7 and rounded when an enemy inhibitor is down (see
`Rift.estimatedPushTime`) — is strictly below that minimum respawn;
(2) when it fires it is exactly the local urgent `WIN_CONDITION` trigger;
(3) snapshot evaluation produces that trigger exactly when game-time
exceeds 1500 s and the check fires. -/
theorem c6_win_condition_trigger
    (st : Rift.DetectorState) (snap : Rift.Snapshot) (ap : Rift.ActivePlayer)
    (team : String) (e0 : Rift.Player) (rest : List Rift.Player)
    (hap : snap.activePlayer = some ap)
    (hne : snap.allPlayers.isEmpty = false)
    (hteam : st.localTeam = some team)
    (henem : snap.allPlayers.filter (fun p => ¬ p.team = team) = e0 :: rest) :
    ((Rift.checkWinCondition st (e0 :: rest)
        ((e0 :: rest).find? (fun p => p.position = "JUNGLE"))).isSome ↔
      (3 ≤ ((e0 :: rest).filter (fun p => p.isDead)).length ∧
        (∃ jg, (e0 :: rest).find? (fun p => p.position = "JUNGLE") =
          some jg ∧ jg.isDead = true) ∧
        (15 : ℚ) ≤ Rift.jsMinList
          (((e0 :: rest).filter (fun p => p.isDead)).map
            (fun p => p.respawnTimer)) ∧
        ((Rift.estimatedPushTime st e0.team : ℚ) <
          Rift.jsMinList (((e0 :: rest).filter (fun p => p.isDead)).map
            (fun p => p.respawnTimer))))) ∧
    (∀ t, Rift.checkWinCondition st (e0 :: rest)
        ((e0 :: rest).find? (fun p => p.position = "JUNGLE")) = some t →
      t = Rift.TriggerResult.mk .winCondition .urgent
        (some "WIN CONDITION ACTIVE — PUSH TO END") (some "WIN_CONDITION")
        false) ∧
    ((Rift.evaluateSnapshot st snap).2.filter
        (fun t => t.trigger = Rift.TriggerKind.winCondition) =
      if (1500 : ℚ) < snap.gameTime then
        (Rift.checkWinCondition st (e0 :: rest)
          ((e0 :: rest).find? (fun p => p.position = "JUNGLE"))).toList
      else []) := by
  refine ⟨Rift.checkWinCondition_iff st e0 rest,
    fun t h => Rift.checkWinCondition_kind _ _ _ t h, ?_⟩
  have h := Rift.evaluateSnapshot_winCondition_filter st snap ap team hap hne
    hteam
  rw [henem] at h
  exact h

/-- Witness for C6, realizing scenario S6's final step: at game-time
1700 s with enemy jungler dead 50 s, two others dead 40 s / 35 s, three
enemy mid turrets down and the enemy mid inhibitor down (push-time
`round(46 × 0.7) = 32 < 35`), the snapshot evaluation emits exactly one
local urgent `WIN_CONDITION` trigger. -/
theorem c6_win_condition_trigger_witness :
    (Rift.evaluateSnapshot Rift.s6State Rift.s6Snapshot).2.filter
        (fun t => t.trigger = Rift.TriggerKind.winCondition) =
      [Rift.TriggerResult.mk .winCondition .urgent
        (some "WIN CONDITION ACTIVE — PUSH TO END") (some "WIN_CONDITION")
        false] := by
  have h := c6_win_condition_trigger Rift.s6State Rift.s6Snapshot
    ⟨"me", "Viktor", 18⟩ "ORDER"
    ⟨"jg", "LeeSin", "CHAOS", "JUNGLE", true, 50, ⟨0, 0, 0⟩⟩
    (Rift.s6Enemies.drop 1) rfl rfl rfl (by decide)
  rw [h.2.2]
  decide

/-! ## Macro-strategist advice cooldown (`macro-strategist` agent in
`tray.js`'s second module) -/

namespace Rift

/-- The sort key of `priorityOrder` (`urgent: 0, suggestion: 1,
info: 2`; the `?? 3` default is unreachable over the urgency type). -/
def priorityOrder : Urgency → Nat
  | .urgent => 0
  | .suggestion => 1
  | .info => 2

/-- Stable insertion used to model `Array.prototype.sort` with the
comparator `priorityOrder[a] - priorityOrder[b]` (stable per ES2019). -/
def insertByPriority (x : TriggerResult) :
    List TriggerResult → List TriggerResult
  | [] => [x]
  | y :: ys =>
    if priorityOrder x.urgency ≤ priorityOrder y.urgency then x :: y :: ys
    else y :: insertByPriority x ys

/-- Stable sort by urgency priority. -/
def sortByPriority (l : List TriggerResult) : List TriggerResult :=
  l.foldr insertByPriority []

/-- The strategist state the cooldown logic reads and writes:
`#lastAdviceTime`, `#invoking`, and whether `#latestSnapshot` is set. -/
structure StrategistState where
  lastAdviceTime : Int
  invoking : Bool
  hasSnapshot : Bool
deriving Repr, DecidableEq

/-- State right after `onActivate` (`#lastAdviceTime = 0`,
`#invoking = false`, `#latestSnapshot = null`). -/
def StrategistState.onActivate : StrategistState := ⟨0, false, false⟩

/-- A dispatched macro call: a local overlay emission
(`#emitLocalCall`) or the start of a Claude invocation
(`#maybeInvokeClaude`), stamped with the `Date.now()` written to
`#lastAdviceTime`. -/
inductive AdviceDispatch where
  | localCall (time : Int)
  | claudeInvoke (time : Int)
deriving Repr, DecidableEq

/-- Time of a dispatch. -/
def AdviceDispatch.time : AdviceDispatch → Int
  | .localCall t => t
  | .claudeInvoke t => t

/-- `#MIN_ADVICE_INTERVAL` (ms). -/
def MIN_ADVICE_INTERVAL : Int := 60000

/-- `#handleSnapshot`, abstracted over the trigger list the detector
returned.  `tCheck` is the `Date.now()` read at the cooldown check,
`tEmit` the `Date.now()` re-read when the advice is recorded (a monotone
clock gives `tCheck ≤ tEmit`); `valid` is the
`snapshot?.allPlayers?.length && snapshot.activePlayer` guard
(`#latestSnapshot` is set before that guard runs).  Within the cooldown
every trigger is dropped; otherwise the top trigger after the stable
urgency sort dispatches locally if it carries a `localCall`, else starts
a Claude invocation if it is Claude-worthy and none is in flight. -/
def handleSnapshot (s : StrategistState) (tCheck tEmit : Int) (valid : Bool)
    (triggers : List TriggerResult) :
    StrategistState × List AdviceDispatch :=
  let s1 := { s with hasSnapshot := true }
  if ¬ valid then (s1, [])
  else if triggers.isEmpty then (s1, [])
  else if tCheck - s1.lastAdviceTime < MIN_ADVICE_INTERVAL then (s1, [])
  else
    match sortByPriority triggers with
    | [] => (s1, [])
    | top :: _ =>
      if top.localCall.isSome then
        ({ s1 with lastAdviceTime := tEmit },
          [AdviceDispatch.localCall tEmit])
      else if top.claudeWorthy then
        if s1.invoking then (s1, [])
        else
          ({ s1 with invoking := true, lastAdviceTime := tEmit },
            [AdviceDispatch.claudeInvoke tEmit])
      else (s1, [])

/-- `#handleNewEvents`, abstracted over the trigger list
`evaluateEvents` returned: within the cooldown every trigger is dropped;
otherwise the Claude-worthy subset (if nonempty) starts an invocation,
provided none is in flight and a snapshot has been seen. -/
def handleNewEvents (s : StrategistState) (tCheck tEmit : Int)
    (triggers : List TriggerResult) :
    StrategistState × List AdviceDispatch :=
  if triggers.isEmpty then (s, [])
  else if tCheck - s.lastAdviceTime < MIN_ADVICE_INTERVAL then (s, [])
  else
    if (triggers.filter (fun t => t.claudeWorthy)).isEmpty then (s, [])
    else if s.invoking then (s, [])
    else if ¬ s.hasSnapshot then (s, [])
    else
      ({ s with invoking := true, lastAdviceTime := tEmit },
        [AdviceDispatch.claudeInvoke tEmit])

/-- One strategist callback: a snapshot tick, an events tick, or the
completion of a Claude invocation (the `finally` clearing `#invoking`). -/
inductive StrategistOp where
  | snap (tCheck tEmit : Int) (valid : Bool) (triggers : List TriggerResult)
  | events (tCheck tEmit : Int) (triggers : List TriggerResult)
  | invokeDone
deriving Repr, DecidableEq

/-- Well-formedness of an operation: its two clock reads are in order
(the wall clock is monotone within one synchronous handler). -/
def StrategistOp.wf : StrategistOp → Bool
  | .snap tCheck tEmit _ _ => tCheck ≤ tEmit
  | .events tCheck tEmit _ => tCheck ≤ tEmit
  | .invokeDone => true

/-- Apply one strategist callback. -/
def strategistStep (s : StrategistState) :
    StrategistOp → StrategistState × List AdviceDispatch
  | .snap tCheck tEmit valid triggers =>
    handleSnapshot s tCheck tEmit valid triggers
  | .events tCheck tEmit triggers => handleNewEvents s tCheck tEmit triggers
  | .invokeDone => ({ s with invoking := false }, [])

/-- Run a sequence of callbacks, collecting dispatches in order. -/
def strategistRun (s : StrategistState) :
    List StrategistOp → StrategistState × List AdviceDispatch
  | [] => (s, [])
  | op :: ops =>
    let step := strategistStep s op
    let rest := strategistRun step.1 ops
    (rest.1, step.2 ++ rest.2)

/-- Helper: one callback either dispatches nothing and leaves
`#lastAdviceTime` unchanged, or dispatches exactly one call stamped at
least a full cooldown after the previous `#lastAdviceTime`, which it
records as the new `#lastAdviceTime`. -/
theorem strategistStep_spec (s : StrategistState) (op : StrategistOp)
    (hwf : op.wf = true) :
    ((strategistStep s op).2 = [] ∧
      (strategistStep s op).1.lastAdviceTime = s.lastAdviceTime) ∨
    (∃ d : AdviceDispatch, (strategistStep s op).2 = [d] ∧
      (strategistStep s op).1.lastAdviceTime = d.time ∧
      s.lastAdviceTime + MIN_ADVICE_INTERVAL ≤ d.time) := by
  cases op with
  | invokeDone => exact Or.inl ⟨rfl, rfl⟩
  | snap tC tE valid trigs =>
    simp only [StrategistOp.wf, decide_eq_true_eq] at hwf
    simp only [strategistStep, handleSnapshot]
    cases valid with
    | false => exact Or.inl ⟨by simp, by simp⟩
    | true =>
      by_cases h2 : trigs.isEmpty
      · exact Or.inl ⟨by simp [h2], by simp [h2]⟩
      · by_cases h3 : tC - s.lastAdviceTime < MIN_ADVICE_INTERVAL
        · exact Or.inl ⟨by simp [h2, h3], by simp [h2, h3]⟩
        · cases hsort : sortByPriority trigs with
          | nil => exact Or.inl ⟨by simp [h2, h3, hsort], by simp [h2, h3, hsort]⟩
          | cons top restT =>
            by_cases h4 : top.localCall.isSome
            · refine Or.inr ⟨AdviceDispatch.localCall tE, ?_, ?_, ?_⟩
              · simp [h2, h3, hsort, h4]
              · simp [h2, h3, hsort, h4, AdviceDispatch.time]
              · simp only [AdviceDispatch.time]
                omega
            · by_cases h5 : top.claudeWorthy
              · by_cases h6 : s.invoking
                · exact Or.inl ⟨by simp [h2, h3, hsort, h4, h5, h6],
                    by simp [h2, h3, hsort, h4, h5, h6]⟩
                · refine Or.inr ⟨AdviceDispatch.claudeInvoke tE, ?_, ?_, ?_⟩
                  · simp [h2, h3, hsort, h4, h5, h6]
                  · simp [h2, h3, hsort, h4, h5, h6, AdviceDispatch.time]
                  · simp only [AdviceDispatch.time]
                    omega
              · exact Or.inl ⟨by simp [h2, h3, hsort, h4, h5],
                  by simp [h2, h3, hsort, h4, h5]⟩
  | events tC tE trigs =>
    simp only [StrategistOp.wf, decide_eq_true_eq] at hwf
    simp only [strategistStep, handleNewEvents]
    by_cases h2 : trigs.isEmpty
    · exact Or.inl ⟨by simp [h2], by simp [h2]⟩
    · by_cases h3 : tC - s.lastAdviceTime < MIN_ADVICE_INTERVAL
      · exact Or.inl ⟨by simp [h2, h3], by simp [h2, h3]⟩
      · by_cases h4 : (trigs.filter (fun t => t.claudeWorthy)).isEmpty
        · exact Or.inl ⟨by simp [h2, h3, h4], by simp [h2, h3, h4]⟩
        · by_cases h5 : s.invoking
          · exact Or.inl ⟨by simp [h2, h3, h4, h5], by simp [h2, h3, h4, h5]⟩
          · by_cases h6 : s.hasSnapshot
            · refine Or.inr ⟨AdviceDispatch.claudeInvoke tE, ?_, ?_, ?_⟩
              · simp [h2, h3, h4, h5, h6]
              · simp [h2, h3, h4, h5, h6, AdviceDispatch.time]
              · simp only [AdviceDispatch.time]
                omega
            · exact Or.inl ⟨by simp [h2, h3, h4, h5, h6],
                by simp [h2, h3, h4, h5, h6]⟩

/-- Helper: over any well-formed callback sequence, dispatches are
pairwise at least one cooldown apart, each is at least one cooldown
after the starting `#lastAdviceTime`, and `#lastAdviceTime` tracks the
latest dispatch monotonically. -/
theorem strategistRun_cooldown (ops : List StrategistOp) :
    ∀ s : StrategistState, (∀ op ∈ ops, op.wf = true) →
    List.Pairwise (fun d1 d2 => d1.time + MIN_ADVICE_INTERVAL ≤ d2.time)
      (strategistRun s ops).2 ∧
    (∀ d ∈ (strategistRun s ops).2,
      s.lastAdviceTime + MIN_ADVICE_INTERVAL ≤ d.time) ∧
    (∀ d ∈ (strategistRun s ops).2,
      d.time ≤ (strategistRun s ops).1.lastAdviceTime) ∧
    s.lastAdviceTime ≤ (strategistRun s ops).1.lastAdviceTime := by
  induction ops with
  | nil =>
    intro s _
    exact ⟨by simp [strategistRun], by simp [strategistRun],
      by simp [strategistRun], by simp [strategistRun]⟩
  | cons op ops ih =>
    intro s hwf
    have hih := ih (strategistStep s op).1
      (fun x hx => hwf x (List.mem_cons_of_mem _ hx))
    obtain ⟨hpair, hlow, hhigh, hmono⟩ := hih
    have hrun : strategistRun s (op :: ops) =
        ((strategistRun (strategistStep s op).1 ops).1,
          (strategistStep s op).2 ++
            (strategistRun (strategistStep s op).1 ops).2) := rfl
    rcases strategistStep_spec s op (hwf op (List.mem_cons_self op ops)) with
      ⟨he, hl⟩ | ⟨d, he, hl, hge⟩
    · rw [hrun, he]
      rw [hl] at hlow hmono
      exact ⟨by simpa using hpair, by simpa using hlow,
        by simpa using hhigh, hmono⟩
    · rw [hrun, he]
      have hint : (0 : Int) ≤ MIN_ADVICE_INTERVAL := by
        simp [MIN_ADVICE_INTERVAL]
      refine ⟨?_, ?_, ?_, ?_⟩
      · simp only [List.singleton_append]
        refine List.Pairwise.cons ?_ hpair
        intro d' hd'
        have := hlow d' hd'
        omega
      · intro d' hd'
        simp only [List.singleton_append, List.mem_cons] at hd'
        rcases hd' with hd' | hd'
        · subst hd'
          exact hge
        · have := hlow d' hd'
          omega
      · intro d' hd'
        simp only [List.singleton_append, List.mem_cons] at hd'
        rcases hd' with hd' | hd'
        · subst hd'
          rw [← hl]
          exact hmono
        · exact hhigh d' hd'
      · have hd2 : d.time ≤
            (strategistRun (strategistStep s op).1 ops).1.lastAdviceTime :=
          hl ▸ hmono
        have hsd : s.lastAdviceTime ≤ d.time := by omega
        exact le_trans hsd hd2

end Rift

/-- C1: global advice cooldown.  (1) Whenever a snapshot or events
callback runs within 60 000 ms of the last dispatch, nothing is
dispatched — every trigger, local or Claude-worthy, is silently dropped.
(2) Over any well-formed callback sequence from activation, any two
dispatched macro calls (local or Claude) are at least 60 000 ms apart. -/
theorem c1_global_advice_cooldown :
    (∀ (s : Rift.StrategistState) (tCheck tEmit : Int) (valid : Bool)
        (triggers : List Rift.TriggerResult),
      tCheck - s.lastAdviceTime < Rift.MIN_ADVICE_INTERVAL →
      (Rift.handleSnapshot s tCheck tEmit valid triggers).2 = [] ∧
      (Rift.handleNewEvents s tCheck tEmit triggers).2 = []) ∧
    (∀ ops : List Rift.StrategistOp, (∀ op ∈ ops, op.wf = true) →
      List.Pairwise
        (fun d1 d2 => d1.time + Rift.MIN_ADVICE_INTERVAL ≤ d2.time)
        (Rift.strategistRun Rift.StrategistState.onActivate ops).2) := by
  constructor
  · intro s tCheck tEmit valid triggers hcd
    constructor
    · simp only [Rift.handleSnapshot]
      cases valid with
      | false => simp
      | true =>
        by_cases h2 : triggers.isEmpty
        · simp [h2]
        · simp [h2, hcd]
    · simp only [Rift.handleNewEvents]
      by_cases h2 : triggers.isEmpty
      · simp [h2]
      · simp [h2, hcd]
  · intro ops hwf
    exact (Rift.strategistRun_cooldown ops Rift.StrategistState.onActivate
      hwf).1

/-- Witness for C1, realizing scenarios S2/S3: a throw-guard local
dispatch at t = 100 000, an ace trigger 20 s later silently dropped, and
an events-side ace trigger 70 s after the first dispatch invoking Claude
at t = 170 001; the two dispatches are ≥ 60 000 ms apart. -/
theorem c1_global_advice_cooldown_witness :
    (Rift.strategistRun Rift.StrategistState.onActivate
        [Rift.StrategistOp.snap 100000 100000 true
          [Rift.TriggerResult.mk .throwGuard .urgent
            (some "RESET NOW — DON'T THROW BOUNTY") (some "RESET_NOW") false],
          Rift.StrategistOp.snap 120000 120000 true
            [Rift.TriggerResult.mk .ace .urgent none none true],
          Rift.StrategistOp.events 170000 170001
            [Rift.TriggerResult.mk .ace .urgent none none true]]).2 =
      [Rift.AdviceDispatch.localCall 100000,
        Rift.AdviceDispatch.claudeInvoke 170001] ∧
    List.Pairwise
      (fun d1 d2 => d1.time + Rift.MIN_ADVICE_INTERVAL ≤ d2.time)
      (Rift.strategistRun Rift.StrategistState.onActivate
        [Rift.StrategistOp.snap 100000 100000 true
          [Rift.TriggerResult.mk .throwGuard .urgent
            (some "RESET NOW — DON'T THROW BOUNTY") (some "RESET_NOW") false],
          Rift.StrategistOp.snap 120000 120000 true
            [Rift.TriggerResult.mk .ace .urgent none none true],
          Rift.StrategistOp.events 170000 170001
            [Rift.TriggerResult.mk .ace .urgent none none true]]).2 ∧
    (Rift.handleSnapshot ⟨100000, false, true⟩ 120000 120000 true
      [Rift.TriggerResult.mk .ace .urgent none none true]).2 = [] := by
  refine ⟨by decide, ?_, ?_⟩
  · exact (c1_global_advice_cooldown.2 _ (by decide))
  · exact (c1_global_advice_cooldown.1 ⟨100000, false, true⟩ 120000 120000
      true [Rift.TriggerResult.mk .ace .urgent none none true]
      (by decide)).1
